import Mathlib

/-!
# prometheus-middleware: status-capturing shim and instrumenting wrapper

A shallow embedding of `prometheus.go`.

* Go strings are Lean strings (valid UTF-8 text), `[]byte` is `List UInt8`,
  `int` values that are only stored and compared are `Int`, and the `int64`
  accumulator `written` wraps modulo `2^64`.
* Pointers that may be nil are `Option`s; a nil dereference is a panic.
* Objects mutated in place (the metric vectors, the response writers) are
  passed explicitly as state.
* The collaborators that are not part of the package (the `net/http` response
  writer, the router, the registry of the metrics library, the clock and the
  Unicode case table) are parameters of the definitions that use them.
-/

namespace prometheusmiddleware

/-! ## Strings and integers -/

/-- Go `[]byte`. -/
abbrev Bytes := List UInt8

/-- Go `error`: nil is `none`, otherwise the message of the error. -/
abbrev GoError := Option String

/-- Two's complement wrap of a mathematical integer into the range of `int64`. -/
def wrapInt64 (x : Int) : Int :=
  (x + 2 ^ 63) % 2 ^ 64 - 2 ^ 63

/-- `unicode.ToLower`: the ASCII range is handled inline, every other rune is
looked up in the case table of the Unicode database, here the parameter
`caseTable`. -/
def unicode.ToLower (caseTable : Char → Char) (r : Char) : Char :=
  if r.toNat ≤ 0x7F then
    if 'A'.toNat ≤ r.toNat ∧ r.toNat ≤ 'Z'.toNat then Char.ofNat (r.toNat + ('a'.toNat - 'A'.toNat)) else r
  else caseTable r

/-- `strings.ToLower`: every rune of `s` mapped through `unicode.ToLower`. -/
def strings.ToLower (caseTable : Char → Char) (s : String) : String :=
  String.mk (s.data.map (unicode.ToLower caseTable))

/-- `strconv.Itoa`: the decimal representation of an `int`. -/
def strconv.Itoa (i : Int) : String :=
  match i with
  | Int.ofNat n => Nat.repr n
  | Int.negSucc n => "-" ++ Nat.repr (n + 1)

/-- `sanitizeMethod` (prometheus.go, line 138). -/
def sanitizeMethod (caseTable : Char → Char) (m : String) : String :=
  strings.ToLower caseTable m

/-- `sanitizeCode` (prometheus.go, line 142). -/
def sanitizeCode (s : Int) : String :=
  strconv.Itoa s

/-! ## Response writers -/

/-- The two response-writing methods of the interface `http.ResponseWriter`,
for an implementation whose state has type `σ`.  `Write` returns the new
state, the number of bytes written and the error. -/
structure http.ResponseWriter (σ : Type) where
  WriteHeader : σ → Int → σ
  Write : σ → Bytes → σ × Int × GoError

/-- `http.StatusOK`. -/
def http.StatusOK : Int := 200

/-- `responseWriterDelegator` (prometheus.go, line 116).  The field
`ResponseWriter` is the state of the embedded writer; the other fields start
at their zero values. -/
structure responseWriterDelegator (σ : Type) where
  ResponseWriter : σ
  status : Int := 0
  written : Int := 0
  wroteHeader : Bool := false

/-- `(*responseWriterDelegator).WriteHeader` (prometheus.go, line 123). -/
def responseWriterDelegator.WriteHeader {σ : Type} (rw : http.ResponseWriter σ)
    (r : responseWriterDelegator σ) (code : Int) : responseWriterDelegator σ :=
  { r with
    status := code
    wroteHeader := true
    ResponseWriter := rw.WriteHeader r.ResponseWriter code }

/-- `(*responseWriterDelegator).Write` (prometheus.go, line 129). -/
def responseWriterDelegator.Write {σ : Type} (rw : http.ResponseWriter σ)
    (r : responseWriterDelegator σ) (b : Bytes) : responseWriterDelegator σ × Int × GoError :=
  let r1 := if !r.wroteHeader then r.WriteHeader rw http.StatusOK else r
  let res := rw.Write r1.ResponseWriter b
  ({ r1 with ResponseWriter := res.1, written := wrapInt64 (r1.written + res.2.1) },
    res.2.1, res.2.2)

/-- The delegator seen through the interface `http.ResponseWriter`: this is
the value `rw` that the wrapper hands to the inner handler. -/
def responseWriterDelegator.asWriter {σ : Type} (rw : http.ResponseWriter σ) :
    http.ResponseWriter (responseWriterDelegator σ) where
  WriteHeader := fun r code => r.WriteHeader rw code
  Write := fun r b => r.Write rw b


/-! ## Inner handlers -/

/-- What a handler does with the response writer it is given: a tree of
`WriteHeader` and `Write` calls.  After a `Write` the handler continues
according to the values the call returned; it ends by returning (`ret`) or by
a failure that escapes it (`panics`). -/
inductive HandlerProg where
  | ret : HandlerProg
  | panics : HandlerProg
  | WriteHeader (code : Int) (k : HandlerProg) : HandlerProg
  | Write (b : Bytes) (k : Int → GoError → HandlerProg) : HandlerProg

/-- The result of running a handler against a writer: the final state of the
writer, the values returned by the `Write` calls in order, and whether the
handler returned normally. -/
structure Exec (τ : Type) where
  state : τ
  results : List (Int × GoError)
  returned : Bool

/-- Runs a handler against the writer `rw` started in state `s`. -/
def HandlerProg.exec {τ : Type} (rw : http.ResponseWriter τ) : HandlerProg → τ → Exec τ
  | .ret, s => { state := s, results := [], returned := true }
  | .panics, s => { state := s, results := [], returned := false }
  | .WriteHeader code k, s => k.exec rw (rw.WriteHeader s code)
  | .Write b k, s =>
    let res := rw.Write s b
    let e := (k res.2.1 res.2.2).exec rw res.1
    { e with results := (res.2.1, res.2.2) :: e.results }

/-- One response-writing call, for handlers given as a plain sequence of calls. -/
inductive Call where
  | WriteHeader (code : Int) : Call
  | Write (b : Bytes) : Call

/-- The handler that makes the calls of `cs` in order, whatever they return,
and then returns. -/
def HandlerProg.ofCalls : List Call → HandlerProg
  | [] => .ret
  | .WriteHeader code :: cs => .WriteHeader code (HandlerProg.ofCalls cs)
  | .Write b :: cs => .Write b (fun _ _ => HandlerProg.ofCalls cs)

/-- The delegator after the calls of `cs` have been made on it in order. -/
def responseWriterDelegator.after {σ : Type} (rw : http.ResponseWriter σ)
    (r : responseWriterDelegator σ) : List Call → responseWriterDelegator σ
  | [] => r
  | .WriteHeader code :: cs => (r.WriteHeader rw code).after rw cs
  | .Write b :: cs => (r.Write rw b).1.after rw cs

/-! ## The response writer of net/http -/

/-- State of a response of `net/http`: the status line once it is fixed, and
the body bytes accepted so far. -/
structure nethttp.response where
  status : Option Int := none
  body : Bytes := []

/-- The response writer of `net/http`: the first `WriteHeader` fixes the
status and later ones are ignored, a `Write` with no status set first fixes
status 200.  How many bytes a `Write` accepts and the error it reports are
decided by `accept` from the status, the body so far and the bytes offered. -/
def nethttp.writer (accept : Int → Bytes → Bytes → Nat × GoError) :
    http.ResponseWriter nethttp.response where
  WriteHeader := fun s code =>
    match s.status with
    | some _ => s
    | none => { s with status := some code }
  Write := fun s b =>
    let st := s.status.getD http.StatusOK
    let res := accept st s.body b
    ({ status := some st, body := s.body ++ b.take res.1 }, (res.1 : Int), res.2)

/-- The writer of `httptest.ResponseRecorder`: every write is accepted whole. -/
def httptest.recorder : http.ResponseWriter nethttp.response :=
  nethttp.writer (fun _ _ b => (b.length, none))

/-! ## The metrics library -/

/-- A `prometheus.CounterVec`: its descriptor and the current value of the
child of each tuple of label values (0 for a child that was never used). -/
structure prometheus.CounterVec where
  Name : String
  Help : String
  labelNames : List String
  values : List String → Nat := fun _ => 0

/-- A `prometheus.HistogramVec`: its descriptor and the observations made so
far on the child of each tuple of label values. -/
structure prometheus.HistogramVec where
  Name : String
  Help : String
  Buckets : List Float
  labelNames : List String
  observations : List String → List Float := fun _ => []

/-- `prometheus.CounterOpts`, the fields the package sets. -/
structure prometheus.CounterOpts where
  Name : String
  Help : String

/-- `prometheus.HistogramOpts`, the fields the package sets. -/
structure prometheus.HistogramOpts where
  Name : String
  Help : String
  Buckets : List Float

/-- `prometheus.NewCounterVec`. -/
def prometheus.NewCounterVec (opts : prometheus.CounterOpts) (labelNames : List String) :
    prometheus.CounterVec :=
  { Name := opts.Name, Help := opts.Help, labelNames := labelNames }

/-- `prometheus.NewHistogramVec`. -/
def prometheus.NewHistogramVec (opts : prometheus.HistogramOpts) (labelNames : List String) :
    prometheus.HistogramVec :=
  { Name := opts.Name, Help := opts.Help, Buckets := opts.Buckets, labelNames := labelNames }

/-- `(*CounterVec).WithLabelValues`: the child for the label values `lvs`,
named by them; the call panics (`none`) when their number is not the number
of label names of the vector. -/
def prometheus.CounterVec.WithLabelValues (v : prometheus.CounterVec) (lvs : List String) :
    Option (List String) :=
  if lvs.length = v.labelNames.length then some lvs else none

/-- The check the library makes on the upper bounds when it builds a
histogram child: it panics when a bound is greater than or equal to the bound
that follows it. -/
def prometheus.bucketsIncreasing : List Float → Bool
  | [] => true
  | [_] => true
  | a :: b :: rest => !(decide (b ≤ a)) && prometheus.bucketsIncreasing (b :: rest)

/-- `(*HistogramVec).WithLabelValues`: as for counters, and the library
builds the histogram child when the label values are used, which panics
(`none`) when the buckets of the vector are not increasing. -/
def prometheus.HistogramVec.WithLabelValues (v : prometheus.HistogramVec) (lvs : List String) :
    Option (List String) :=
  if lvs.length = v.labelNames.length ∧ prometheus.bucketsIncreasing v.Buckets = true then
    some lvs
  else none

/-- `Counter.Inc` on the child `child` of the vector. -/
def prometheus.CounterVec.Inc (v : prometheus.CounterVec) (child : List String) :
    prometheus.CounterVec :=
  { v with values := fun k => if k = child then v.values k + 1 else v.values k }

/-- `Observer.Observe` on the child `child` of the vector. -/
def prometheus.HistogramVec.Observe (v : prometheus.HistogramVec) (child : List String)
    (x : Float) : prometheus.HistogramVec :=
  { v with observations := fun k => if k = child then v.observations k ++ [x] else v.observations k }

/-- What `prometheus.Register` is given. -/
inductive prometheus.Collector where
  | histogramVec (h : prometheus.HistogramVec) : prometheus.Collector
  | counterVec (c : prometheus.CounterVec) : prometheus.Collector

/-- The process-wide registry of the metrics library, with state of type `ρ`:
`Register` returns the new state and nil or an error. -/
structure prometheus.Registerer (ρ : Type) where
  Register : ρ → prometheus.Collector → ρ × GoError

/-- A registry that refuses a collector whose name it already holds, as the
default registry does on a second construction in one process. -/
def prometheus.byName : prometheus.Registerer (List String) where
  Register := fun names c =>
    let n := match c with
      | .histogramVec h => h.Name
      | .counterVec v => v.Name
    if n ∈ names then (names, some "duplicate metrics collector registration attempted")
    else (n :: names, none)

/-! ## The middleware -/

/-- `dflBuckets` (prometheus.go, line 15). -/
def dflBuckets : List Float := [0.3, 1.0, 2.5, 5.0]

/-- `latencyName` (prometheus.go, line 19). -/
def latencyName : String := "http_request_duration_ms"

/-- `startedName` (prometheus.go, line 20). -/
def startedName : String := "http_request_started_total"

/-- `completedName` (prometheus.go, line 21). -/
def completedName : String := "http_request_completed_total"

/-- `Opts` (prometheus.go, line 25); a nil slice and an empty slice are both
the empty list. -/
structure Opts where
  Buckets : List Float := []

/-- `PrometheusMiddleware` (prometheus.go, line 31): three pointers, nil in
the zero value. -/
structure PrometheusMiddleware where
  latency : Option prometheus.HistogramVec := none
  started : Option prometheus.CounterVec := none
  completed : Option prometheus.CounterVec := none

/-- What a call of `NewPrometheusMiddleware` leaves behind: the value it
returns, the registry and the lines written to the log. -/
structure Setup (ρ : Type) where
  middleware : PrometheusMiddleware
  registry : ρ
  log : List String

/-- `log.Println` with a text and an error: the operands separated by a blank. -/
def logPrintln (log : List String) (text : String) (err : String) : List String :=
  log ++ [text ++ " " ++ err]

/-- `NewPrometheusMiddleware` (prometheus.go, line 38), run against the
registry `reg` in state `g`. -/
def NewPrometheusMiddleware {ρ : Type} (reg : prometheus.Registerer ρ) (g : ρ) (opts : Opts) :
    Setup ρ :=
  let prometheusMiddleware : PrometheusMiddleware := {}
  let buckets := if opts.Buckets.length = 0 then dflBuckets else opts.Buckets
  let latency := prometheus.NewHistogramVec
    { Name := latencyName
      Help := "How long it took to process the request, partitioned by status code, method and HTTP path."
      Buckets := buckets }
    ["code", "method", "path"]
  let prometheusMiddleware := { prometheusMiddleware with latency := some latency }
  let r1 := reg.Register g (.histogramVec latency)
  let log1 := match r1.2 with
    | some err => logPrintln [] "prometheusMiddleware.latency was not registered:" err
    | none => []
  let started := prometheus.NewCounterVec
    { Name := startedName
      Help := "Total number of requests started on the http server." }
    ["method", "path"]
  let prometheusMiddleware := { prometheusMiddleware with started := some started }
  let r2 := reg.Register r1.1 (.counterVec started)
  let log2 := match r2.2 with
    | some err => logPrintln log1 "prometheusMiddleware.started was not registered:" err
    | none => log1
  let completed := prometheus.NewCounterVec
    { Name := completedName
      Help := "Total number of requests completed on the http server." }
    ["code", "method", "path"]
  let prometheusMiddleware := { prometheusMiddleware with completed := some completed }
  let r3 := reg.Register r2.1 (.counterVec completed)
  let log3 := match r3.2 with
    | some err => logPrintln log2 "prometheusMiddleware.completed was not registered:" err
    | none => log2
  { middleware := prometheusMiddleware, registry := r3.1, log := log3 }

/-! ## The router and the request -/

/-- A `mux.Route`, as far as the path template goes: `none` when the route
defines no path. -/
structure mux.Route where
  template : Option String

/-- `http.Request`: the method, and the route the router stored in the
request context (nil when it stored none). -/
structure http.Request where
  Method : String
  route : Option mux.Route

/-- `mux.CurrentRoute`: the route of the request context, or nil. -/
def mux.CurrentRoute (r : http.Request) : Option mux.Route :=
  r.route

/-- `(*mux.Route).GetPathTemplate` on a pointer that may be nil.  The method
starts by reading the field `err` of its receiver, so on a nil receiver it
panics (`none`); on a route without a path it returns the empty string and an
error. -/
def mux.GetPathTemplate : Option mux.Route → Option (String × GoError)
  | none => none
  | some rt =>
    match rt.template with
    | some t => some (t, none)
    | none => some ("", some "mux: route doesn't have a path")

/-- An `http.Handler` as the wrapper calls it: the handler may read the metric
vectors of the process as they are when it starts (the exposition handler
does), and then talks to its response writer. -/
abbrev http.Handler := PrometheusMiddleware → http.Request → HandlerProg

/-- The work of a `go` statement of the wrapper: the method call that runs in
the new goroutine, its receiver and argument already evaluated. -/
inductive Goroutine where
  | completedInc (child : List String) : Goroutine
  | latencyObserve (child : List String) (x : Float) : Goroutine

/-- Runs the work of one goroutine on the metric vectors. -/
def Goroutine.run (p : PrometheusMiddleware) : Goroutine → PrometheusMiddleware
  | .completedInc child => { p with completed := p.completed.map (fun v => v.Inc child) }
  | .latencyObserve child x => { p with latency := p.latency.map (fun v => v.Observe child x) }

/-- What one call of the wrapped handler leaves behind: the metric vectors as
the call itself left them, the run of the inner handler on the delegator
(`none` when the inner handler was never called), the underlying writer, the
goroutines started, and whether the call ended in a panic. -/
structure Outcome (σ : Type) where
  metrics : PrometheusMiddleware
  inner : Option (Exec (responseWriterDelegator σ))
  writer : σ
  spawned : List Goroutine
  panicked : Bool

/-- `time.Duration.Milliseconds`: nanoseconds to whole milliseconds, rounded
toward zero. -/
def Milliseconds (d : Int) : Int :=
  Int.tdiv d 1000000

/-- The handler returned by `InstrumentHandlerDuration` (prometheus.go, line
86), called with the underlying writer `rw` in state `w` and the request `r`.
`p` is the state of the metric vectors when the call starts and `since` is the
duration that `time.Since(begin)` returns. -/
def InstrumentHandlerDuration {σ : Type} (caseTable : Char → Char) (p : PrometheusMiddleware)
    (next : http.Handler) (rw : http.ResponseWriter σ) (w : σ) (r : http.Request)
    (since : Int) : Outcome σ :=
  let route := mux.CurrentRoute r
  match mux.GetPathTemplate route with
  | none => { metrics := p, inner := none, writer := w, spawned := [], panicked := true }
  | some (path, _) =>
    let method := sanitizeMethod caseTable r.Method
    match p.started with
    | none => { metrics := p, inner := none, writer := w, spawned := [], panicked := true }
    | some started =>
      match started.WithLabelValues [method, path] with
      | none => { metrics := p, inner := none, writer := w, spawned := [], panicked := true }
      | some child =>
        let p1 := { p with started := some (started.Inc child) }
        let delegate : responseWriterDelegator σ := { ResponseWriter := w }
        let e := (next p1 r).exec (responseWriterDelegator.asWriter rw) delegate
        if !e.returned then
          { metrics := p1, inner := some e, writer := e.state.ResponseWriter, spawned := [],
            panicked := true }
        else
          let code := sanitizeCode e.state.status
          match p1.completed.bind (fun v => v.WithLabelValues [code, method, path]) with
          | none =>
            { metrics := p1, inner := some e, writer := e.state.ResponseWriter, spawned := [],
              panicked := true }
          | some c1 =>
            match p1.latency.bind (fun v => v.WithLabelValues [code, method, path]) with
            | none =>
              { metrics := p1, inner := some e, writer := e.state.ResponseWriter,
                spawned := [.completedInc c1], panicked := true }
            | some c2 =>
              { metrics := p1, inner := some e, writer := e.state.ResponseWriter,
                spawned := [.completedInc c1, .latencyObserve c2 (Float.ofInt (Milliseconds since))],
                panicked := false }

/-- The code of the last `WriteHeader` call of a sequence of calls, if the
sequence has one. -/
def lastWriteHeader : List Call → Option Int
  | [] => none
  | .WriteHeader code :: cs =>
    match lastWriteHeader cs with
    | some c => some c
    | none => some code
  | .Write _ :: cs => lastWriteHeader cs

/-- The handler of the route "/" in `Test_InstrumentGorillaMux`
(prometheus_test.go, line 21): `WriteHeader(200)`, then the line "ok". -/
def okHandler : http.Handler :=
  fun _ _ => .WriteHeader http.StatusOK (.Write [111, 107, 10] (fun _ _ => .ret))

/-- A handler that returns without any call on its response writer. -/
def silentHandler : http.Handler :=
  fun _ _ => .ret

/-- The request `GET /` of the test, matched by the route with template "/". -/
def getRoot : http.Request :=
  { Method := "GET", route := some { template := some "/" } }

/-- The middleware of the test: built with empty options against a registry
that holds nothing yet. -/
def testMiddleware : PrometheusMiddleware :=
  (NewPrometheusMiddleware prometheus.byName [] {}).middleware

/-- A middleware built with the single bucket 1.0 against a registry that
holds nothing yet. -/
def oneBucketMiddleware : PrometheusMiddleware :=
  (NewPrometheusMiddleware prometheus.byName [] { Buckets := [1.0] }).middleware

/-- A handler that calls `WriteHeader(404)` and then `WriteHeader(500)`. -/
def twoHeadersHandler : http.Handler :=
  fun _ _ => HandlerProg.ofCalls [Call.WriteHeader 404, Call.WriteHeader 500]

/-- The metric vectors after the goroutines of `gs` have run, in that order. -/
def runAll (p : PrometheusMiddleware) (gs : List Goroutine) : PrometheusMiddleware :=
  gs.foldl Goroutine.run p

/-! ## The status-capturing shim -/

/-- A fresh delegator around the writer state `w`, as line 95 builds it. -/
def fresh {σ : Type} (w : σ) : responseWriterDelegator σ :=
  { ResponseWriter := w }

theorem WriteHeader_status {σ : Type} (rw : http.ResponseWriter σ)
    (r : responseWriterDelegator σ) (code : Int) :
    (r.WriteHeader rw code).status = code ∧ (r.WriteHeader rw code).wroteHeader = true :=
  ⟨rfl, rfl⟩

theorem Write_status_of_wroteHeader {σ : Type} (rw : http.ResponseWriter σ)
    (r : responseWriterDelegator σ) (b : Bytes) (h : r.wroteHeader = true) :
    (r.Write rw b).1.status = r.status ∧ (r.Write rw b).1.wroteHeader = true := by
  simp [responseWriterDelegator.Write, h]

theorem Write_status_of_not_wroteHeader {σ : Type} (rw : http.ResponseWriter σ)
    (r : responseWriterDelegator σ) (b : Bytes) (h : r.wroteHeader = false) :
    (r.Write rw b).1.status = 200 ∧ (r.Write rw b).1.wroteHeader = true := by
  simp [responseWriterDelegator.Write, responseWriterDelegator.WriteHeader, h, http.StatusOK]

theorem after_status_of_wroteHeader {σ : Type} (rw : http.ResponseWriter σ) (cs : List Call) :
    ∀ r : responseWriterDelegator σ, r.wroteHeader = true →
      (r.after rw cs).status = (lastWriteHeader cs).getD r.status ∧
        (r.after rw cs).wroteHeader = true := by
  induction cs with
  | nil => intro r h; exact ⟨rfl, h⟩
  | cons c cs ih =>
    intro r h
    cases c with
    | WriteHeader code =>
      have h1 := ih (r.WriteHeader rw code) rfl
      simp only [responseWriterDelegator.after, lastWriteHeader]
      refine ⟨?_, h1.2⟩
      rw [h1.1]
      cases lastWriteHeader cs <;> rfl
    | Write b =>
      have hw := Write_status_of_wroteHeader rw r b h
      have h1 := ih (r.Write rw b).1 hw.2
      simp only [responseWriterDelegator.after, lastWriteHeader]
      refine ⟨?_, h1.2⟩
      rw [h1.1, hw.1]

theorem exec_ofCalls {σ : Type} (rw : http.ResponseWriter σ) (cs : List Call) :
    ∀ r : responseWriterDelegator σ,
      ((HandlerProg.ofCalls cs).exec (responseWriterDelegator.asWriter rw) r).state
          = r.after rw cs ∧
        ((HandlerProg.ofCalls cs).exec (responseWriterDelegator.asWriter rw) r).returned
          = true := by
  induction cs with
  | nil => intro r; exact ⟨rfl, rfl⟩
  | cons c cs ih =>
    intro r
    cases c with
    | WriteHeader code => exact ih (r.WriteHeader rw code)
    | Write b => exact ih (r.Write rw b).1

theorem lastWriteHeader_map_Write (bs : List Bytes) :
    lastWriteHeader (bs.map Call.Write) = none := by
  induction bs with
  | nil => rfl
  | cons b bs ih => simpa [lastWriteHeader] using ih

/-- C3: on a fresh delegator whose first response-writing call is `Write(b)`,
the captured status is 200 and `wroteHeader` is true afterwards, so the code
label is "200", whatever the underlying writer is and returns. -/
theorem Write_first_captures_200 {σ : Type} (rw : http.ResponseWriter σ) (w : σ) (b : Bytes) :
    ((fresh w).Write rw b).1.status = 200 ∧
      ((fresh w).Write rw b).1.wroteHeader = true ∧
      sanitizeCode ((fresh w).Write rw b).1.status = "200" := by
  have h := Write_status_of_not_wroteHeader rw (fresh w) b rfl
  refine ⟨h.1, h.2, ?_⟩
  rw [h.1]
  rfl

/-- C4: after a single `WriteHeader(c)` on a fresh delegator, any number of
`Write` calls leaves the captured status at `c`; for `c = 404` the code label
is "404". -/
theorem Write_keeps_captured_status {σ : Type} (rw : http.ResponseWriter σ) (w : σ) (c : Int)
    (bs : List Bytes) :
    ((fresh w).after rw (Call.WriteHeader c :: bs.map Call.Write)).status = c ∧
      sanitizeCode ((fresh w).after rw (Call.WriteHeader 404 :: bs.map Call.Write)).status
        = "404" := by
  have key : ∀ c : Int,
      ((fresh w).after rw (Call.WriteHeader c :: bs.map Call.Write)).status = c := by
    intro c
    have h := after_status_of_wroteHeader rw (bs.map Call.Write) ((fresh w).WriteHeader rw c) rfl
    simp only [responseWriterDelegator.after]
    rw [h.1, lastWriteHeader_map_Write]
    rfl
  refine ⟨key c, ?_⟩
  rw [key 404]
  rfl

theorem after_status_of_fresh {σ : Type} (rw : http.ResponseWriter σ) (w : σ)
    (c : Call) (cs : List Call) (c1 c2 : Int) :
    ((fresh w).after rw (c :: cs)).status = (lastWriteHeader (c :: cs)).getD 200 ∧
      ((fresh w).after rw (c :: cs)).wroteHeader = true ∧
      ((fresh w).after rw [Call.WriteHeader c1, Call.WriteHeader c2]).status = c2 := by
  refine ⟨?_, ?_, rfl⟩
  · cases c with
    | WriteHeader code =>
      have h := after_status_of_wroteHeader rw cs ((fresh w).WriteHeader rw code) rfl
      simp only [responseWriterDelegator.after, lastWriteHeader]
      rw [h.1]
      cases lastWriteHeader cs <;> rfl
    | Write b =>
      have hw := Write_status_of_not_wroteHeader rw (fresh w) b rfl
      have h := after_status_of_wroteHeader rw cs ((fresh w).Write rw b).1 hw.2
      simp only [responseWriterDelegator.after, lastWriteHeader]
      rw [h.1, hw.1]
  · cases c with
    | WriteHeader code =>
      exact (after_status_of_wroteHeader rw cs ((fresh w).WriteHeader rw code) rfl).2
    | Write b =>
      have hw := Write_status_of_not_wroteHeader rw (fresh w) b rfl
      exact (after_status_of_wroteHeader rw cs ((fresh w).Write rw b).1 hw.2).2

/-- C5, at the failing input: on a fresh delegator over a recorder,
`WriteHeader(404)` then `WriteHeader(500)` leaves the captured status at 500
while the response keeps the first status 404, and `Write` then
`WriteHeader(500)` leaves 500 while the response keeps 200; through the
wrapper both goroutines get the code label "500" for a response that
carries 404. -/
theorem second_WriteHeader_overwrites :
    ((fresh ({} : nethttp.response)).after httptest.recorder
        [Call.WriteHeader 404, Call.WriteHeader 500]).status = 500 ∧
      ¬ ((fresh ({} : nethttp.response)).after httptest.recorder
        [Call.WriteHeader 404, Call.WriteHeader 500]).status = 404 ∧
      ((fresh ({} : nethttp.response)).after httptest.recorder
        [Call.WriteHeader 404, Call.WriteHeader 500]).ResponseWriter.status = some 404 ∧
      ¬ ((fresh ({} : nethttp.response)).after httptest.recorder
        [Call.Write [111, 107], Call.WriteHeader 500]).status = 200 ∧
      ((fresh ({} : nethttp.response)).after httptest.recorder
        [Call.Write [111, 107], Call.WriteHeader 500]).ResponseWriter.status = some 200 ∧
      (InstrumentHandlerDuration id oneBucketMiddleware twoHeadersHandler httptest.recorder {}
        getRoot 3000000).spawned
        = [Goroutine.completedInc ["500", "get", "/"],
            Goroutine.latencyObserve ["500", "get", "/"] (Float.ofInt 3)] ∧
      (InstrumentHandlerDuration id oneBucketMiddleware twoHeadersHandler httptest.recorder {}
        getRoot 3000000).writer.status = some 404 := by
  refine ⟨rfl, ?_, rfl, ?_, rfl, rfl, rfl⟩ <;> decide

/-! ## Transparency of the shim -/

theorem nethttp_implicit_OK (accept : Int → Bytes → Bytes → Nat × GoError)
    (s : nethttp.response) (b : Bytes) :
    (nethttp.writer accept).Write ((nethttp.writer accept).WriteHeader s http.StatusOK) b
      = (nethttp.writer accept).Write s b := by
  cases s with
  | mk status body =>
    cases status <;> simp [nethttp.writer]

theorem Write_forwards {σ : Type} (rw : http.ResponseWriter σ) (r : responseWriterDelegator σ)
    (b : Bytes) :
    (r.Write rw b).2 =
        (rw.Write (if r.wroteHeader then r.ResponseWriter
          else rw.WriteHeader r.ResponseWriter http.StatusOK) b).2 ∧
      (r.Write rw b).1.ResponseWriter =
        (rw.Write (if r.wroteHeader then r.ResponseWriter
          else rw.WriteHeader r.ResponseWriter http.StatusOK) b).1 := by
  cases h : r.wroteHeader <;>
    simp [responseWriterDelegator.Write, responseWriterDelegator.WriteHeader, h]

theorem exec_through_delegator {σ : Type} (rw : http.ResponseWriter σ)
    (law : ∀ s b, rw.Write (rw.WriteHeader s http.StatusOK) b = rw.Write s b)
    (prog : HandlerProg) :
    ∀ r : responseWriterDelegator σ,
      (prog.exec (responseWriterDelegator.asWriter rw) r).state.ResponseWriter
          = (prog.exec rw r.ResponseWriter).state ∧
        (prog.exec (responseWriterDelegator.asWriter rw) r).results
          = (prog.exec rw r.ResponseWriter).results ∧
        (prog.exec (responseWriterDelegator.asWriter rw) r).returned
          = (prog.exec rw r.ResponseWriter).returned := by
  induction prog with
  | ret => intro r; exact ⟨rfl, rfl, rfl⟩
  | panics => intro r; exact ⟨rfl, rfl, rfl⟩
  | WriteHeader code k ih =>
    intro r
    exact ih (r.WriteHeader rw code)
  | Write b k ih =>
    intro r
    have hf := Write_forwards rw r b
    have hsame : rw.Write (if r.wroteHeader then r.ResponseWriter
        else rw.WriteHeader r.ResponseWriter http.StatusOK) b = rw.Write r.ResponseWriter b := by
      cases r.wroteHeader
      · simpa using law r.ResponseWriter b
      · simp
    rw [hsame] at hf
    have h1 := ih (rw.Write r.ResponseWriter b).2.1 (rw.Write r.ResponseWriter b).2.2
      (r.Write rw b).1
    have hw : (responseWriterDelegator.asWriter rw).Write r b = r.Write rw b := rfl
    simp only [HandlerProg.exec, hw]
    rw [hf.1, ← hf.2]
    exact ⟨h1.1, by rw [h1.2.1], h1.2.2⟩

/-- C8: for every handler and every `net/http` response writer, running the
handler through a fresh delegator leaves the underlying writer with the same
status and the same body as running the handler on the writer directly, the
`Write` calls return the same values to the handler in the same order, and
the handler ends the same way; each `Write` of the delegator returns what the
underlying `Write` returned. -/
theorem delegator_is_transparent (accept : Int → Bytes → Bytes → Nat × GoError)
    (prog : HandlerProg) (s : nethttp.response) :
    ((prog.exec (responseWriterDelegator.asWriter (nethttp.writer accept)) (fresh s)).state.ResponseWriter.status
        = (prog.exec (nethttp.writer accept) s).state.status) ∧
      ((prog.exec (responseWriterDelegator.asWriter (nethttp.writer accept)) (fresh s)).state.ResponseWriter.body
        = (prog.exec (nethttp.writer accept) s).state.body) ∧
      ((prog.exec (responseWriterDelegator.asWriter (nethttp.writer accept)) (fresh s)).results
        = (prog.exec (nethttp.writer accept) s).results) ∧
      ((prog.exec (responseWriterDelegator.asWriter (nethttp.writer accept)) (fresh s)).returned
        = (prog.exec (nethttp.writer accept) s).returned) ∧
      ∀ (r : responseWriterDelegator nethttp.response) (b : Bytes),
        (r.Write (nethttp.writer accept) b).2 = ((nethttp.writer accept).Write r.ResponseWriter b).2 := by
  have h := exec_through_delegator (nethttp.writer accept) (nethttp_implicit_OK accept) prog
    (fresh s)
  refine ⟨by rw [h.1]; rfl, by rw [h.1]; rfl, h.2.1, h.2.2, ?_⟩
  intro r b
  have hf := (Write_forwards (nethttp.writer accept) r b).1
  rw [hf]
  cases r.wroteHeader
  · simpa using congrArg (fun x => x.2) (nethttp_implicit_OK accept r.ResponseWriter b)
  · simp

/-! ## The instrumenting wrapper -/

theorem serve_until_handler {σ : Type} (caseTable : Char → Char) (p : PrometheusMiddleware)
    (sv : prometheus.CounterVec) (next : http.Handler) (rw : http.ResponseWriter σ) (w : σ)
    (r : http.Request) (path : String) (err : GoError) (since : Int)
    (hroute : mux.GetPathTemplate (mux.CurrentRoute r) = some (path, err))
    (hs : p.started = some sv) (hsl : sv.labelNames.length = 2) :
    (InstrumentHandlerDuration caseTable p next rw w r since).metrics
        = { p with started := some (sv.Inc [sanitizeMethod caseTable r.Method, path]) } ∧
      (InstrumentHandlerDuration caseTable p next rw w r since).inner
        = some ((next { p with started := some (sv.Inc [sanitizeMethod caseTable r.Method, path]) }
            r).exec (responseWriterDelegator.asWriter rw) (fresh w)) := by
  unfold InstrumentHandlerDuration
  simp only [hroute, hs, prometheus.CounterVec.WithLabelValues, hsl, List.length_cons,
    List.length_nil, if_true]
  constructor
  · split
    · rfl
    · split
      · rfl
      · split <;> rfl
  · split
    · rfl
    · split
      · rfl
      · split <;> rfl

theorem runAll_started (p : PrometheusMiddleware) (gs : List Goroutine) :
    (runAll p gs).started = p.started := by
  induction gs generalizing p with
  | nil => rfl
  | cons g gs ih =>
    have h := ih (Goroutine.run p g)
    cases g <;> simpa [runAll, Goroutine.run] using h

/-- C1: when the route of the request resolves to the path template `path`,
the wrapped handler increments the started counter of the pair (lower-cased
method, `path`) by exactly 1 and leaves every other pair as it was, also once
the goroutines of the call have run; and the inner handler is started in the
state in which that increment is already made. -/
theorem started_incremented_before_handler {σ : Type} (caseTable : Char → Char)
    (p : PrometheusMiddleware) (sv : prometheus.CounterVec) (next : http.Handler)
    (rw : http.ResponseWriter σ) (w : σ) (r : http.Request) (path : String) (since : Int)
    (hroute : mux.GetPathTemplate (mux.CurrentRoute r) = some (path, none))
    (hs : p.started = some sv) (hsl : sv.labelNames.length = 2) :
    ∃ sv1 : prometheus.CounterVec,
      (InstrumentHandlerDuration caseTable p next rw w r since).metrics.started = some sv1 ∧
      sv1.values [sanitizeMethod caseTable r.Method, path]
        = sv.values [sanitizeMethod caseTable r.Method, path] + 1 ∧
      (∀ k : List String, k ≠ [sanitizeMethod caseTable r.Method, path] →
        sv1.values k = sv.values k) ∧
      (runAll (InstrumentHandlerDuration caseTable p next rw w r since).metrics
          (InstrumentHandlerDuration caseTable p next rw w r since).spawned).started
        = some sv1 ∧
      (InstrumentHandlerDuration caseTable p next rw w r since).inner
        = some ((next { p with started := some sv1 } r).exec
            (responseWriterDelegator.asWriter rw) (fresh w)) := by
  have h := serve_until_handler caseTable p sv next rw w r path none since hroute hs hsl
  refine ⟨sv.Inc [sanitizeMethod caseTable r.Method, path], ?_, ?_, ?_, ?_, h.2⟩
  · rw [h.1]
  · simp [prometheus.CounterVec.Inc]
  · intro k hk
    simp [prometheus.CounterVec.Inc, hk]
  · rw [runAll_started, h.1]

/-- C1, at the request of the test: `GET /` through a middleware that has
counted nothing yet. -/
theorem started_incremented_before_handler_witness :
    ∃ sv1 : prometheus.CounterVec,
      (InstrumentHandlerDuration id testMiddleware okHandler httptest.recorder {} getRoot
        3000000).metrics.started = some sv1 ∧
      sv1.values ["get", "/"] = 0 + 1 ∧
      (∀ k : List String, k ≠ ["get", "/"] → sv1.values k = 0) ∧
      (runAll (InstrumentHandlerDuration id testMiddleware okHandler httptest.recorder {} getRoot
          3000000).metrics
          (InstrumentHandlerDuration id testMiddleware okHandler httptest.recorder {} getRoot
          3000000).spawned).started
        = some sv1 ∧
      (InstrumentHandlerDuration id testMiddleware okHandler httptest.recorder {} getRoot
        3000000).inner
        = some ((okHandler { testMiddleware with started := some sv1 } getRoot).exec
            (responseWriterDelegator.asWriter httptest.recorder) (fresh {})) :=
  started_incremented_before_handler id testMiddleware _ okHandler httptest.recorder {} getRoot
    "/" 3000000 rfl rfl rfl

/-- C6, at the failing input: for the handler that returns without any call
on its response writer the captured status is still 0 when the wrapper reads
it, with the middleware of the test as with a middleware of one bucket, and
both goroutines are started with the code label "0". -/
theorem silent_handler_recorded_as_code_0 :
    (InstrumentHandlerDuration id testMiddleware silentHandler httptest.recorder {} getRoot
        3000000).inner.map (fun e => (e.state.status, e.state.wroteHeader, e.returned))
        = some (0, false, true) ∧
      (InstrumentHandlerDuration id oneBucketMiddleware silentHandler httptest.recorder {}
        getRoot 3000000).inner.map (fun e => (e.state.status, e.state.wroteHeader, e.returned))
        = some (0, false, true) ∧
      (InstrumentHandlerDuration id oneBucketMiddleware silentHandler httptest.recorder {}
        getRoot 3000000).spawned
        = [Goroutine.completedInc ["0", "get", "/"],
            Goroutine.latencyObserve ["0", "get", "/"] (Float.ofInt 3)] := by
  refine ⟨?_, rfl, rfl⟩
  rw [(serve_until_handler id testMiddleware _ silentHandler httptest.recorder {} getRoot "/"
    none 3000000 rfl rfl rfl).2]
  rfl

/-- C7: the histogram gets the buckets 0.3, 1.0, 2.5, 5.0 when the options
hold no buckets, and exactly the buckets of the options, in their order, when
they hold at least one. -/
theorem buckets_default_or_configured {ρ : Type} (reg : prometheus.Registerer ρ) (g : ρ)
    (b : Float) (bs : List Float) :
    (NewPrometheusMiddleware reg g { Buckets := [] }).middleware.latency.map
        (fun h => h.Buckets) = some [0.3, 1.0, 2.5, 5.0] ∧
      (NewPrometheusMiddleware reg g { Buckets := b :: bs }).middleware.latency.map
        (fun h => h.Buckets) = some (b :: bs) :=
  ⟨rfl, rfl⟩

/-- C10: whatever the three registrations return, `NewPrometheusMiddleware`
returns a middleware whose three instruments are set and carry the names and
label names of the package, and the middleware returned is the same for every
registry: no outcome of a registration reaches the caller. -/
theorem registration_outcome_not_propagated {ρ ρ1 : Type} (reg : prometheus.Registerer ρ)
    (g : ρ) (reg1 : prometheus.Registerer ρ1) (g1 : ρ1) (opts : Opts) :
    (∃ (h : prometheus.HistogramVec) (s c : prometheus.CounterVec),
      (NewPrometheusMiddleware reg g opts).middleware
        = { latency := some h, started := some s, completed := some c } ∧
      h.Name = "http_request_duration_ms" ∧ h.labelNames = ["code", "method", "path"] ∧
      s.Name = "http_request_started_total" ∧ s.labelNames = ["method", "path"] ∧
      c.Name = "http_request_completed_total" ∧ c.labelNames = ["code", "method", "path"]) ∧
    (NewPrometheusMiddleware reg g opts).middleware
      = (NewPrometheusMiddleware reg1 g1 opts).middleware :=
  ⟨⟨_, _, _, rfl, rfl, rfl, rfl, rfl, rfl, rfl⟩, rfl⟩

end prometheusmiddleware
